import Mathlib

/-!
Verification development for the incremental load-test driver of the
repository (`JitsiLoadTestOrchestrator`).  The JavaScript orchestrator is
shallowly embedded: strings are lists of characters, the regex-based
metric extraction is embedded as deterministic scanners implementing the
concrete patterns of the source, the incremental testing loop is a
fuel-indexed recursive function emitting an event trace (scale-up events
and test events), and the final report generator is a pure function on the
recorded result list.  Wall-clock values (step durations) are supplied by
an oracle parameter; JavaScript floating-point arithmetic on the small
quantities involved is modelled exactly over `ℚ`, with `NaN`/`Infinity`
represented explicitly by the `JSNumber` type.
-/

/-- Strings of the embedded program are lists of characters. -/
abbrev Str := List Char

/-- Does `hay` start with `pat`?  (Literal, case-sensitive.) -/
def strStartsWith : Str → Str → Bool
  | _, [] => true
  | [], _ :: _ => false
  | c :: s, d :: p => decide (c = d) && strStartsWith s p

/-- Does `hay` contain `pat` as a contiguous substring?
Embeds JavaScript `String.prototype.includes`. -/
def strContains : Str → Str → Bool
  | [], p => p.isEmpty
  | c :: t, p => strStartsWith (c :: t) p || strContains t p

/-- JavaScript regex `\s` (the whitespace characters relevant here). -/
def isJsSpace (c : Char) : Bool :=
  decide (c = ' ') || decide (c = '\t') || decide (c = '\n') || decide (c = '\r') ||
    decide (c = '\x0b') || decide (c = '\x0c')

/-- JavaScript regex `.` — any character except a line terminator. -/
def isDotChar (c : Char) : Bool :=
  !(decide (c = '\n') || decide (c = '\r'))

/-- JavaScript regex `[^\n]`. -/
def isNonNl (c : Char) : Bool :=
  !(decide (c = '\n'))

/-- Numeric value of a digit string (JavaScript `parseInt` on a `\d+` token). -/
def digitsVal (ds : Str) : Nat :=
  ds.foldl (fun n c => 10 * n + (c.toNat - '0'.toNat)) 0

/-- Strip a literal (case-sensitive) from the front; `some rest` on success. -/
def stripLit : Str → Str → Option Str
  | s, [] => some s
  | [], _ :: _ => none
  | c :: s, d :: p => if c = d then stripLit s p else none

/-- Strip a literal from the front, comparing case-insensitively
(JavaScript regex `i` flag). -/
def stripLitCI : Str → Str → Option Str
  | s, [] => some s
  | [], _ :: _ => none
  | c :: s, d :: p => if c.toLower = d.toLower then stripLitCI s p else none

/-- Attempt to match the source regex `Total time:\s+(\d+:\d+)` at the head of
the input.  On success, return the captured `\d+:\d+` token and the remaining
input after the whole match. -/
def matchTotalTimeAt (s : Str) : Option (Str × Str) :=
  match stripLit s ("Total time:".data) with
  | none => none
  | some r1 =>
    let ws := r1.takeWhile isJsSpace
    let r2 := r1.dropWhile isJsSpace
    if ws.isEmpty then none else
    let d1 := r2.takeWhile Char.isDigit
    let r3 := r2.dropWhile Char.isDigit
    if d1.isEmpty then none else
    match r3 with
    | ':' :: r4 =>
      let d2 := r4.takeWhile Char.isDigit
      let r5 := r4.dropWhile Char.isDigit
      if d2.isEmpty then none else some (d1 ++ ':' :: d2, r5)
    | _ => none

/-- Leftmost match of the total-time pattern (JavaScript `String.match`
without the `g` flag, as in the source's `parseTestMetrics`): scan positions
left to right and return the first capture. -/
def firstTotalTimeAux : Nat → Str → Option Str
  | 0, _ => none
  | _ + 1, [] => none
  | fuel + 1, c :: t =>
    match matchTotalTimeAt (c :: t) with
    | some (tok, _) => some tok
    | none => firstTotalTimeAux fuel t

def firstTotalTime (s : Str) : Option Str :=
  firstTotalTimeAux s.length s

/-- All (non-overlapping, left-to-right) matches of the total-time pattern,
i.e. what the regex would produce with the `g` flag. -/
def totalTimeOccurrencesAux : Nat → Str → List Str
  | 0, _ => []
  | _ + 1, [] => []
  | fuel + 1, c :: t =>
    match matchTotalTimeAt (c :: t) with
    | some (tok, rest) => tok :: totalTimeOccurrencesAux fuel rest
    | none => totalTimeOccurrencesAux fuel t

def totalTimeOccurrences (s : Str) : List Str :=
  totalTimeOccurrencesAux s.length s

/-- Modelled from the spec: "duration: the last occurrence of a
`<minutes>:<seconds>`-shaped total-time token".  The last of all
occurrences, absent when there is none. -/
def lastTotalTime (s : Str) : Option Str :=
  (totalTimeOccurrences s).getLast?

/-- After the (case-insensitive) literal `participant`, match the source
pattern `s?\s+joined` case-insensitively; returns the rest after `joined`. -/
def matchWsJoined (s : Str) : Option Str :=
  let ws := s.takeWhile isJsSpace
  let r := s.dropWhile isJsSpace
  if ws.isEmpty then none else stripLitCI r ("joined".data)

/-- Attempt to match the source regex `(\d+)\s+participants?\s+joined` (flags
`gi`) at the head of the input; on success return the leading captured number
(what the source recovers with `.match(/\d+/)[0]` and `parseInt`) and the
rest after the whole match. -/
def matchJoinedAt (s : Str) : Option (Nat × Str) :=
  let d1 := s.takeWhile Char.isDigit
  let r1 := s.dropWhile Char.isDigit
  if d1.isEmpty then none else
  let ws := r1.takeWhile isJsSpace
  let r2 := r1.dropWhile isJsSpace
  if ws.isEmpty then none else
  match stripLitCI r2 ("participant".data) with
  | none => none
  | some r3 =>
    match r3 with
    | c :: r4 =>
      if c.toLower = 's' then
        match matchWsJoined r4 with
        | some r5 => some (digitsVal d1, r5)
        | none =>
          match matchWsJoined r3 with
          | some r5 => some (digitsVal d1, r5)
          | none => none
      else
        match matchWsJoined r3 with
        | some r5 => some (digitsVal d1, r5)
        | none => none
    | [] =>
      match matchWsJoined r3 with
      | some r5 => some (digitsVal d1, r5)
      | none => none

/-- All matches of the joined pattern, left to right, non-overlapping. -/
def joinedMatchesAux : Nat → Str → List Nat
  | 0, _ => []
  | _ + 1, [] => []
  | fuel + 1, c :: t =>
    match matchJoinedAt (c :: t) with
    | some (n, rest) => n :: joinedMatchesAux fuel rest
    | none => joinedMatchesAux fuel t

def joinedMatches (s : Str) : List Nat :=
  joinedMatchesAux s.length s

/-- All matches of the source regex `(?:ERROR|FAILED):[^\n]*` (flag `g`),
left to right, non-overlapping. -/
def failureReasonsAux : Nat → Str → List Str
  | 0, _ => []
  | _ + 1, [] => []
  | fuel + 1, c :: t =>
    if strStartsWith (c :: t) ("ERROR:".data) then
      ("ERROR:".data ++ ((c :: t).drop 6).takeWhile isNonNl) ::
        failureReasonsAux fuel (((c :: t).drop 6).dropWhile isNonNl)
    else if strStartsWith (c :: t) ("FAILED:".data) then
      ("FAILED:".data ++ ((c :: t).drop 7).takeWhile isNonNl) ::
        failureReasonsAux fuel (((c :: t).drop 7).dropWhile isNonNl)
    else
      failureReasonsAux fuel t

def failureReasonList (s : Str) : List Str :=
  failureReasonsAux s.length s

/-- All matches of the source regex `ERROR.*|FAILED.*` (flag `g`), left to
right, non-overlapping; used for the step's diagnostics list. -/
def errorMatchesAux : Nat → Str → List Str
  | 0, _ => []
  | _ + 1, [] => []
  | fuel + 1, c :: t =>
    if strStartsWith (c :: t) ("ERROR".data) then
      ("ERROR".data ++ ((c :: t).drop 5).takeWhile isDotChar) ::
        errorMatchesAux fuel (((c :: t).drop 5).dropWhile isDotChar)
    else if strStartsWith (c :: t) ("FAILED".data) then
      ("FAILED".data ++ ((c :: t).drop 6).takeWhile isDotChar) ::
        errorMatchesAux fuel (((c :: t).drop 6).dropWhile isDotChar)
    else
      errorMatchesAux fuel t

def errorMatches (s : Str) : List Str :=
  errorMatchesAux s.length s

/-- The optional metrics mapping extracted from raw test output
(source `parseTestMetrics`). -/
structure TestMetrics where
  participantsJoined : Option Nat
  testDuration : Option Str
  failureReasons : List Str
deriving DecidableEq

/-- The empty metrics object (`{}` in the source). -/
def emptyMetrics : TestMetrics :=
  { participantsJoined := none, testDuration := none, failureReasons := [] }

/-- Embedding of the source's `parseTestMetrics`:
`participantsJoined` is the number of the last `(\d+)\s+participants?\s+joined`
match (unset when there is none), `testDuration` is the capture of the first —
not last — `Total time:\s+(\d+:\d+)` match (the source regex has no `g` flag),
and `failureReasons` is the first three `(?:ERROR|FAILED):[^\n]*` matches. -/
def parseTestMetrics (output : Str) : TestMetrics :=
  { participantsJoined := (joinedMatches output).getLast?
    testDuration := firstTotalTime output
    failureReasons := (failureReasonList output).take 3 }

/-- Outcome of running the test at one load level (source `runSingleTest`'s
`result` object).  The wall-clock `timestamp` of the source is not modelled;
the elapsed `duration` is supplied by an oracle parameter. -/
structure TestStepResult where
  participants : Nat
  success : Bool
  errors : List Str
  duration : Nat
  metrics : TestMetrics
deriving DecidableEq

/-- Embedding of the source's `runSingleTest`.  The remote executor call is an
oracle outcome: `Except.ok output` when `executeRemoteScript` returned the
combined output, `Except.error msg` when it threw.  On success of the call the
result's flag is `output.includes("BUILD SUCCESS") || !output.includes("FAILURES")`,
metrics are parsed from the output and — only when the flag is false — the
diagnostics are the first five `ERROR.*|FAILED.*` matches.  On a thrown error
the step is still produced, with `success = false`, the caught message as the
single diagnostic and the metrics left empty. -/
def runSingleTest (execOutcome : Except Str Str) (participants elapsedMs : Nat) :
    TestStepResult :=
  match execOutcome with
  | Except.ok output =>
    let success := strContains output ("BUILD SUCCESS".data) ||
      !strContains output ("FAILURES".data)
    { participants := participants
      success := success
      errors := if success then [] else (errorMatches output).take 5
      duration := elapsedMs
      metrics := parseTestMetrics output }
  | Except.error msg =>
    { participants := participants
      success := false
      errors := [msg]
      duration := elapsedMs
      metrics := emptyMetrics }

/-- The campaign configuration fields the core consumes
(source `this.config`). -/
structure Config where
  incrementStep : Nat
  maxParticipants : Nat
  participantsPerNode : Nat
deriving DecidableEq

/-- `Math.ceil(load / cap)` of the source, over naturals (exact for `cap > 0`,
the ceiling of the true quotient — proved below). -/
def requiredUnits (load cap : Nat) : Nat :=
  (load + cap - 1) / cap

/-- Observable events of the testing loop: a scale-up (registered worker
count before and after `addNodes`) or a test run at a load with the worker
count registered at that moment, producing a recorded step result. -/
inductive DriverEvent where
  | scaleUp (oldCount newCount : Nat)
  | test (load : Nat) (nodesRegistered : Nat) (result : TestStepResult)
deriving DecidableEq

/-- Embedding of the source's `runIncrementalTests` loop body, indexed by
fuel (the loop runs at most `maxParticipants` iterations when the increment
is positive, so the fuel chosen in `runIncrementalTests` is never exhausted).
Each iteration at load `p ≤ maxParticipants` computes the required units;
when they exceed the registered count it first emits a scale-up event
(`addNodes` appends exactly the deficit, so the count becomes the required
number), then runs the test and records the result; a failed result stops
the loop immediately. -/
def driverLoop (cfg : Config) (exec : Nat → Except Str Str) (elapsed : Nat → Nat) :
    Nat → Nat → Nat → List DriverEvent
  | _, _, 0 => []
  | nodes, p, fuel + 1 =>
    if p ≤ cfg.maxParticipants then
      (if nodes < requiredUnits p cfg.participantsPerNode then
        [DriverEvent.scaleUp nodes (requiredUnits p cfg.participantsPerNode)]
      else []) ++
      (let nodes2 := if nodes < requiredUnits p cfg.participantsPerNode then
          requiredUnits p cfg.participantsPerNode
        else nodes
       let r := runSingleTest (exec p) p (elapsed p)
       DriverEvent.test p nodes2 r ::
         (if r.success then
           driverLoop cfg exec elapsed nodes2 (p + cfg.incrementStep) fuel
         else []))
    else []

/-- The full campaign trace: the loop starts at the configured increment with
the initially provisioned workers registered. -/
def runIncrementalTests (cfg : Config) (exec : Nat → Except Str Str)
    (elapsed : Nat → Nat) (initialNodes : Nat) : List DriverEvent :=
  driverLoop cfg exec elapsed initialNodes cfg.incrementStep
    (cfg.maxParticipants + 1)

/-- The ordered result log: the step results recorded by the trace, in order
(source `this.testResults`). -/
def resultsOf (tr : List DriverEvent) : List TestStepResult :=
  tr.filterMap fun e =>
    match e with
    | DriverEvent.test _ _ r => some r
    | DriverEvent.scaleUp _ _ => none

/-- A JavaScript number that can be `NaN` or an infinity; finite values are
exact rationals. -/
inductive JSNumber where
  | nan
  | posInf
  | negInf
  | num (q : ℚ)
deriving DecidableEq

/-- JavaScript division on the values arising here: division by zero yields
`NaN` for `0 / 0` and a signed infinity otherwise; no error is ever raised. -/
def jsDiv (a b : ℚ) : JSNumber :=
  if b = 0 then
    if a = 0 then JSNumber.nan
    else if 0 < a then JSNumber.posInf
    else JSNumber.negInf
  else JSNumber.num (a / b)

/-- Multiplication of a JavaScript number by a positive finite constant
(`NaN` and infinities are preserved). -/
def jsMulPos (x : JSNumber) (k : ℚ) : JSNumber :=
  match x with
  | JSNumber.nan => JSNumber.nan
  | JSNumber.posInf => JSNumber.posInf
  | JSNumber.negInf => JSNumber.negInf
  | JSNumber.num q => JSNumber.num (q * k)

/-- JavaScript `Math.ceil` (`NaN` and infinities are preserved). -/
def jsCeil (x : JSNumber) : JSNumber :=
  match x with
  | JSNumber.num q => JSNumber.num (⌈q⌉ : ℚ)
  | other => other

/-- The summary block of the final report (source `generateFinalReport`).
`maxSuccessfulParticipants` is `Math.max(...successfulLoads, 0)`;
`successRate` is `(successCount / total) * 100` (the source additionally
formats it with `toFixed(1)` for display — string formatting is not part of
the value modelled); `recommendedCapacity` is `Math.floor(maxSuccess * 0.8)`,
modelled exactly as the floor of `4/5` of the value. -/
structure ReportSummary where
  maxSuccessfulParticipants : Nat
  breakingPoint : Option Nat
  totalTests : Nat
  successRate : JSNumber
  estimatedCost : ℚ
  recommendedCapacity : Nat
deriving DecidableEq

/-- The final campaign report.  The string-valued configuration echo and the
infrastructure IP snapshot of the source are not modelled; `nodesUsed`
stands for the worker registry size. -/
structure CampaignReport where
  summary : ReportSummary
  detailedResults : List TestStepResult
  nodesUsed : Nat
deriving DecidableEq

/-- Source `calculateCost`: `(nodes + 1) * max(totalDurationHours, 1) * 0.071`
with durations summed in milliseconds. -/
def calculateCost (results : List TestStepResult) (nodesCount : Nat) : ℚ :=
  ((nodesCount : ℚ) + 1) * max (((results.map (·.duration)).sum : ℚ) / 3600000) 1 *
    (71 / 1000)

/-- Embedding of the source's `generateFinalReport` on the recorded result
log and the worker registry size. -/
def generateFinalReport (results : List TestStepResult) (nodesCount : Nat) :
    CampaignReport :=
  let maxSuccess := ((results.filter (·.success)).map (·.participants)).foldl max 0
  { summary :=
    { maxSuccessfulParticipants := maxSuccess
      breakingPoint :=
        match results.find? (fun r => !r.success) with
        | none => none
        | some r => if r.participants = 0 then none else some r.participants
      totalTests := results.length
      successRate :=
        jsMulPos (jsDiv ((results.filter (·.success)).length : ℚ)
          ((results.length : ℚ))) 100
      estimatedCost := calculateCost results nodesCount
      recommendedCapacity := 4 * maxSuccess / 5 }
    detailedResults := results
    nodesUsed := nodesCount }

/-- Embedding of the source's `calculateInfrastructure`: it computes
`Math.ceil(maxParticipants / participantsPerNode)`, logs, and stores the
count.  The body contains no validation and no `throw`, so as a fallible
computation it always returns `Except.ok`; division by zero follows
JavaScript semantics via `jsDiv`. -/
def calculateInfrastructure (maxParticipants participantsPerNode : ℚ) :
    Except Str JSNumber :=
  Except.ok (jsCeil (jsDiv maxParticipants participantsPerNode))

/-- Modelled from the spec: `maxSuccessfulLoad` is "the maximum
`requestedLoad` over results with `success = true`; undefined/absent if
none". -/
def maxSuccessfulLoadSpec (results : List TestStepResult) : Option Nat :=
  ((results.filter (·.success)).map (·.participants)).max?

/-- Modelled from the spec: `successRate` is "count(success)/count(total);
undefined when total is 0". -/
def successRateSpec (results : List TestStepResult) : Option ℚ :=
  if results.length = 0 then none
  else some (((results.filter (·.success)).length : ℚ) / (results.length : ℚ))

/-- The capacity-accounting shape of a well-formed trace: every test event
runs with at least the required units registered, and every scale-up event is
immediately followed by the test it was provisioned for, adds a positive
deficit, and brings the count to exactly the required units of that test's
load. -/
def goodTrace (cap : Nat) : List DriverEvent → Bool
  | [] => true
  | DriverEvent.scaleUp a b :: DriverEvent.test l n _ :: t =>
    decide (a < b) && decide (b = n) && decide (n = requiredUnits l cap) &&
      decide (requiredUnits l cap ≤ n) && goodTrace cap t
  | DriverEvent.scaleUp _ _ :: _ => false
  | DriverEvent.test l n _ :: t =>
    decide (requiredUnits l cap ≤ n) && goodTrace cap t

def scaledNodes (cfg : Config) (nodes p : Nat) : Nat :=
  if nodes < requiredUnits p cfg.participantsPerNode then
    requiredUnits p cfg.participantsPerNode
  else nodes

/-- Concrete output with two total-time tokens. -/
def exDurationOutput : Str :=
  ("Total time: 1:30 abc Total time: 2:45".data)

def exFailedStep : TestStepResult :=
  { participants := 50, success := false, errors := [], duration := 1000
    metrics := emptyMetrics }

/-! ## Witness fixtures: small concrete campaigns -/

def cfgW : Config :=
  { incrementStep := 50, maxParticipants := 100, participantsPerNode := 80 }

def cfgScaleW : Config :=
  { incrementStep := 50, maxParticipants := 200, participantsPerNode := 80 }

def execOkW : Nat → Except Str Str := fun _ => Except.ok []

def execErrW : Nat → Except Str Str := fun _ => Except.error ("ssh failed".data)

def elapsedW : Nat → Nat := fun _ => 0

def rErrW : TestStepResult := runSingleTest (Except.error ("ssh failed".data)) 50 0

/-! ## Correctness of the substring scanner -/

theorem strStartsWith_iff (p : Str) : ∀ l : Str, strStartsWith l p = true ↔ p <+: l := by
  induction p with
  | nil =>
    intro l
    have h : strStartsWith l [] = true := by cases l <;> rfl
    simp [h]
  | cons d p' ih =>
    intro l
    cases l with
    | nil =>
      have h : strStartsWith [] (d :: p') = false := rfl
      simp [h]
    | cons c l' =>
      have h : strStartsWith (c :: l') (d :: p') =
          (decide (c = d) && strStartsWith l' p') := rfl
      rw [h, Bool.and_eq_true, decide_eq_true_eq, ih, List.cons_prefix_cons]
      exact and_congr_left fun _ => eq_comm

theorem strContains_iff (l p : Str) : strContains l p = true ↔ p <:+: l := by
  induction l with
  | nil => simp [strContains, List.isEmpty_iff]
  | cons c t ih =>
    simp [strContains, List.infix_cons_iff, strStartsWith_iff, ih]

/-- C10: For every raw test output string, the step's success flag is true if
and only if the output contains the token "BUILD SUCCESS" or does not contain
the token "FAILURES"; in particular an output containing neither token — for
example the empty output — is classified as a successful step. -/
theorem claim_C10_success_flag :
    (∀ (output : Str) (p e : Nat),
      (runSingleTest (Except.ok output) p e).success = true ↔
        (("BUILD SUCCESS".data) <:+: output ∨ ¬ (("FAILURES".data) <:+: output)))
    ∧ ∀ p e : Nat, (runSingleTest (Except.ok []) p e).success = true := by
  constructor
  · intro output p e
    have h : (runSingleTest (Except.ok output) p e).success =
        (strContains output ("BUILD SUCCESS".data) ||
          !strContains output ("FAILURES".data)) := rfl
    rw [h, Bool.or_eq_true, Bool.not_eq_true']
    exact or_congr (strContains_iff output _)
      (Bool.eq_false_iff.trans (not_congr (strContains_iff output _)))
  · intro p e
    rfl

/-- C10 witness: a concrete output without either token is a successful step. -/
theorem claim_C10_success_flag_witness :
    (runSingleTest (Except.ok ("all good here".data)) 50 1000).success = true :=
  (claim_C10_success_flag.1 ("all good here".data) 50 1000).mpr
    (Or.inr (by rw [← strContains_iff]; decide))

/-! ## The duration metric takes the first total-time occurrence -/

theorem firstTotalTimeAux_eq_head :
    ∀ (fuel : Nat) (s : Str),
      firstTotalTimeAux fuel s = (totalTimeOccurrencesAux fuel s).head? := by
  intro fuel
  induction fuel with
  | zero => intro s; rfl
  | succ f ih =>
    intro s
    cases s with
    | nil => rfl
    | cons c t =>
      simp only [firstTotalTimeAux, totalTimeOccurrencesAux]
      cases h : matchTotalTimeAt (c :: t) with
      | none => simp [ih]
      | some pr => rfl

/-- C9 (amended): metric extraction sets the duration metric to the FIRST
occurrence of a "minutes:seconds"-shaped total-time token in the output (the
source regex `Total time:\s+(\d+:\d+)` is used without the global flag, so
`String.match` yields the leftmost match); when no such token is present the
field is left unset (`none`), and extraction is a total function, never an
error. -/
theorem claim_C9_duration_first_occurrence (output : Str) :
    (parseTestMetrics output).testDuration = (totalTimeOccurrences output).head? := by
  have h : (parseTestMetrics output).testDuration = firstTotalTime output := rfl
  rw [h, firstTotalTime, totalTimeOccurrences, firstTotalTimeAux_eq_head]

/-- C9 counterexample: on an output whose last total-time token is "2:45",
the extracted duration is the first token "1:30", not the last occurrence as
the claim states. -/
theorem claim_C9_counterexample :
    lastTotalTime exDurationOutput = some ("2:45".data)
    ∧ (parseTestMetrics exDurationOutput).testDuration = some ("1:30".data)
    ∧ (parseTestMetrics exDurationOutput).testDuration ≠ lastTotalTime exDurationOutput := by
  refine ⟨by decide, by decide, by decide⟩

/-! ## The capacity planner computes a ceiling -/

theorem requiredUnits_eq_ceil (l c : Nat) (hc : 0 < c) :
    ((requiredUnits l c : ℤ)) = ⌈(l : ℚ) / (c : ℚ)⌉ := by
  have hc' : (0 : ℚ) < (c : ℚ) := by exact_mod_cast hc
  have hmod := Nat.div_add_mod (l + c - 1) c
  have hltm : (l + c - 1) % c < c := Nat.mod_lt _ hc
  rw [eq_comm, Int.ceil_eq_iff]
  have key : (c : ℤ) * ((l + c - 1) / c : ℕ) + ((l + c - 1) % c : ℕ) = (l : ℤ) + c - 1 := by
    have h1 : c * ((l + c - 1) / c) + (l + c - 1) % c = l + c - 1 := hmod
    have h2 : 1 ≤ l + c := by omega
    zify [h2] at h1
    exact_mod_cast h1
  have hm' : (((l + c - 1) % c : ℕ) : ℤ) < (c : ℤ) := by exact_mod_cast hltm
  have hm0 : (0 : ℤ) ≤ (((l + c - 1) % c : ℕ) : ℤ) := Int.natCast_nonneg _
  constructor
  · rw [lt_div_iff₀ hc']
    have hgoal : (((requiredUnits l c : ℕ) : ℤ) - 1) * (c : ℤ) < (l : ℤ) := by
      have e : (((requiredUnits l c : ℕ) : ℤ) - 1) * (c : ℤ)
          = (c : ℤ) * ((l + c - 1) / c : ℕ) - c := by
        rw [requiredUnits]; ring
      rw [e]; linarith
    exact_mod_cast hgoal
  · rw [div_le_iff₀ hc']
    have hgoal : (l : ℤ) ≤ ((requiredUnits l c : ℕ) : ℤ) * (c : ℤ) := by
      have e : ((requiredUnits l c : ℕ) : ℤ) * (c : ℤ)
          = (c : ℤ) * ((l + c - 1) / c : ℕ) := by
        rw [requiredUnits]; ring
      rw [e]; linarith
    exact_mod_cast hgoal

/-- C3: For all positive targetLoad and perUnitCapacity, `requiredUnits`
returns exactly the ceiling of targetLoad / perUnitCapacity; in particular,
with capacity 80 the required units at loads 50, 100, 150, 200 are
1, 2, 2, 3 respectively. -/
theorem claim_C3_requiredUnits_ceiling :
    (∀ l c : Nat, 0 < l → 0 < c →
      ((requiredUnits l c : ℤ)) = ⌈(l : ℚ) / (c : ℚ)⌉)
    ∧ requiredUnits 50 80 = 1 ∧ requiredUnits 100 80 = 2
    ∧ requiredUnits 150 80 = 2 ∧ requiredUnits 200 80 = 3 :=
  ⟨fun l c _ hc => requiredUnits_eq_ceil l c hc, by decide, by decide, by decide, by decide⟩

/-- C3 witness: the ceiling characterisation applied at load 150,
capacity 80. -/
theorem claim_C3_requiredUnits_ceiling_witness :
    0 < (150 : ℕ) ∧ 0 < (80 : ℕ) ∧
      ((requiredUnits 150 80 : ℤ)) = ⌈((150 : ℕ) : ℚ) / ((80 : ℕ) : ℚ)⌉ :=
  ⟨by decide, by decide,
    claim_C3_requiredUnits_ceiling.1 150 80 (by decide) (by decide)⟩

/-! ## The planner performs no configuration validation -/

/-- C4 counterexample: with targetLoad 1000 and perUnitCapacity -5 (≤ 0) the
planner completes normally with the value ceil(1000 / -5) = -200; it does not
fail with any error, let alone `InvalidConfiguration`. -/
theorem claim_C4_counterexample :
    calculateInfrastructure 1000 (-5) = Except.ok (JSNumber.num (-200)) := by
  norm_num [calculateInfrastructure, jsDiv, jsCeil]
  norm_cast

/-- C4 (amended): the planner performs no validation of perUnitCapacity.  For
every negative capacity and positive target load it completes without raising
any error, returning the (non-positive) ceiling of the quotient — so nothing
stops provisioning from proceeding with a nonsensical unit count; for
capacity 0 it returns Infinity, again without error. -/
theorem claim_C4_no_validation :
    (∀ m c : ℚ, 0 < m → c < 0 →
      ∃ q : ℚ, q ≤ 0 ∧ calculateInfrastructure m c = Except.ok (JSNumber.num q))
    ∧ ∀ m : ℚ, 0 < m → calculateInfrastructure m 0 = Except.ok JSNumber.posInf := by
  constructor
  · intro m c hm hc
    have hc0 : c ≠ 0 := ne_of_lt hc
    have hquot : m / c < 0 := div_neg_of_pos_of_neg hm hc
    refine ⟨((⌈m / c⌉ : ℤ) : ℚ), ?_, ?_⟩
    · have : ⌈m / c⌉ ≤ (0 : ℤ) := Int.ceil_le.mpr (by exact_mod_cast le_of_lt hquot)
      exact_mod_cast this
    · simp [calculateInfrastructure, jsDiv, hc0, jsCeil]
  · intro m hm
    have hm0 : m ≠ 0 := ne_of_gt hm
    simp [calculateInfrastructure, jsDiv, hm0, hm, jsCeil]

/-- C4 witness: the amended no-validation theorem applied at target load 1000
and capacity -5. -/
theorem claim_C4_no_validation_witness :
    (0 : ℚ) < 1000 ∧ (-5 : ℚ) < 0 ∧
      ∃ q : ℚ, q ≤ 0 ∧ calculateInfrastructure 1000 (-5) = Except.ok (JSNumber.num q) :=
  ⟨by norm_num, by norm_num,
    claim_C4_no_validation.1 1000 (-5) (by norm_num) (by norm_num)⟩

/-! ## Report generator: maximum successful load and success rate -/

theorem foldl_max_eq_max? : ∀ (l : List Nat), l.foldl max 0 = (l.max?).getD 0 := by
  have key : ∀ (l : List Nat) (a : Nat), l.foldl max a = (l.max?).elim a (max a) := by
    intro l
    induction l with
    | nil => intro a; rfl
    | cons x t ih =>
      intro a
      rw [List.foldl_cons, ih, List.max?_cons]
      cases h : t.max? with
      | none => simp [h]
      | some b => simp [h, Nat.max_assoc]
  intro l
  rw [key l 0]
  cases h : l.max? with
  | none => rfl
  | some m => simp [Nat.zero_max]

theorem claim_C6_maxSuccessfulLoad (results : List TestStepResult) (nodesCount : Nat) :
    (generateFinalReport results nodesCount).summary.maxSuccessfulParticipants
        = (maxSuccessfulLoadSpec results).getD 0
    ∧ (generateFinalReport results nodesCount).summary.recommendedCapacity
        = 4 * (maxSuccessfulLoadSpec results).getD 0 / 5
    ∧ (generateFinalReport results nodesCount).summary.recommendedCapacity
        = ⌊((maxSuccessfulLoadSpec results).getD 0 : ℚ) * (4 / 5)⌋₊ := by
  have hmax : (generateFinalReport results nodesCount).summary.maxSuccessfulParticipants
      = ((results.filter (·.success)).map (·.participants)).foldl max 0 := rfl
  have hrec : (generateFinalReport results nodesCount).summary.recommendedCapacity
      = 4 * (((results.filter (·.success)).map (·.participants)).foldl max 0) / 5 := rfl
  have h1 := foldl_max_eq_max? ((results.filter (·.success)).map (·.participants))
  have hb : ∀ m : ℕ, 4 * m / 5 = ⌊(m : ℚ) * (4 / 5)⌋₊ := by
    intro m
    have hc : (m : ℚ) * (4 / 5) = ((4 * m : ℕ) : ℚ) / ((5 : ℕ) : ℚ) := by
      push_cast; ring
    rw [hc, Nat.floor_div_eq_div]
  refine ⟨?_, ?_, ?_⟩
  · rw [hmax, h1]; rfl
  · rw [hrec, h1]; rfl
  · rw [hrec, h1]
    exact hb _

theorem claim_C6_counterexample :
    maxSuccessfulLoadSpec [exFailedStep] = none
    ∧ (generateFinalReport [exFailedStep] 1).summary.maxSuccessfulParticipants = 0
    ∧ (generateFinalReport [exFailedStep] 1).summary.recommendedCapacity = 0 :=
  ⟨by decide, by decide, by decide⟩

theorem claim_C7_successRate (results : List TestStepResult) (nodesCount : Nat) :
    (generateFinalReport results nodesCount).summary.successRate =
      (match successRateSpec results with
       | none => JSNumber.nan
       | some q => JSNumber.num (q * 100)) := by
  have h : (generateFinalReport results nodesCount).summary.successRate =
      jsMulPos (jsDiv ((results.filter (·.success)).length : ℚ)
        ((results.length : ℚ))) 100 := rfl
  rw [h]
  cases results with
  | nil => rfl
  | cons r t =>
    have hlen' : (r :: t).length ≠ 0 := Nat.succ_ne_zero _
    have hlen : (((r :: t).length : ℕ) : ℚ) ≠ 0 := Nat.cast_ne_zero.mpr hlen'
    have hlen2 : ((t.length : ℚ) + 1) ≠ 0 := by positivity
    simp [successRateSpec, jsDiv, jsMulPos, hlen, hlen', hlen2]

theorem claim_C7_counterexample :
    (generateFinalReport [] 0).summary.successRate = JSNumber.nan
    ∧ successRateSpec [] = none :=
  ⟨by decide, by decide⟩

/-! ## Driver loop: unfolding lemmas -/

theorem driverLoop_zero (cfg : Config) (exec : Nat → Except Str Str)
    (elapsed : Nat → Nat) (nodes p : Nat) :
    driverLoop cfg exec elapsed nodes p 0 = [] := rfl

theorem driverLoop_succ (cfg : Config) (exec : Nat → Except Str Str)
    (elapsed : Nat → Nat) (nodes p f : Nat) :
    driverLoop cfg exec elapsed nodes p (f + 1) =
      if p ≤ cfg.maxParticipants then
        (if nodes < requiredUnits p cfg.participantsPerNode then
          [DriverEvent.scaleUp nodes (requiredUnits p cfg.participantsPerNode)]
        else []) ++
        (DriverEvent.test p (scaledNodes cfg nodes p)
            (runSingleTest (exec p) p (elapsed p)) ::
          (if (runSingleTest (exec p) p (elapsed p)).success then
            driverLoop cfg exec elapsed (scaledNodes cfg nodes p)
              (p + cfg.incrementStep) f
          else []))
      else [] := rfl

theorem resultsOf_nil : resultsOf [] = [] := rfl

theorem resultsOf_append (a b : List DriverEvent) :
    resultsOf (a ++ b) = resultsOf a ++ resultsOf b := by
  simp [resultsOf]

theorem resultsOf_scale_ite (c : Prop) [Decidable c] (a b : Nat) :
    resultsOf (if c then [DriverEvent.scaleUp a b] else []) = [] := by
  split <;> rfl

theorem resultsOf_test_cons (l n : Nat) (r : TestStepResult) (t : List DriverEvent) :
    resultsOf (DriverEvent.test l n r :: t) = r :: resultsOf t := rfl

theorem resultsOf_driverLoop_succ (cfg : Config) (exec : Nat → Except Str Str)
    (elapsed : Nat → Nat) (nodes p f : Nat) (hp : p ≤ cfg.maxParticipants) :
    resultsOf (driverLoop cfg exec elapsed nodes p (f + 1)) =
      runSingleTest (exec p) p (elapsed p) ::
        (if (runSingleTest (exec p) p (elapsed p)).success then
          resultsOf (driverLoop cfg exec elapsed (scaledNodes cfg nodes p)
            (p + cfg.incrementStep) f)
        else []) := by
  rw [driverLoop_succ, if_pos hp, resultsOf_append, resultsOf_scale_ite,
    resultsOf_test_cons, List.nil_append]
  congr 1
  split
  · rfl
  · rfl

/-- With a positive increment, the fuel chosen in `runIncrementalTests` is
never exhausted: any fuel at least `maxParticipants + 1 - p` produces the
same trace, so the fuel-indexed model computes exactly the source loop. -/
theorem driverLoop_fuel_succ (cfg : Config) (exec : Nat → Except Str Str)
    (elapsed : Nat → Nat) (hinc : 0 < cfg.incrementStep) :
    ∀ (fuel nodes p : Nat), cfg.maxParticipants + 1 ≤ fuel + p →
      driverLoop cfg exec elapsed nodes p (fuel + 1) =
        driverLoop cfg exec elapsed nodes p fuel := by
  intro fuel
  induction fuel with
  | zero =>
    intro nodes p h
    have hp : ¬ p ≤ cfg.maxParticipants := by omega
    rw [driverLoop_succ, if_neg hp, driverLoop_zero]
  | succ f ih =>
    intro nodes p h
    rw [driverLoop_succ cfg exec elapsed nodes p (f + 1),
      driverLoop_succ cfg exec elapsed nodes p f,
      ih (scaledNodes cfg nodes p) (p + cfg.incrementStep) (by omega)]

theorem runSingleTest_participants (o : Except Str Str) (p e : Nat) :
    (runSingleTest o p e).participants = p := by
  cases o <;> rfl

/-! ## The recorded load sequence -/

theorem driverLoop_loads (cfg : Config) (exec : Nat → Except Str Str)
    (elapsed : Nat → Nat) :
    ∀ (fuel nodes p : Nat), ∃ k,
      ((resultsOf (driverLoop cfg exec elapsed nodes p fuel)).map (·.participants)
          = (List.range k).map fun i => p + i * cfg.incrementStep)
      ∧ ∀ x ∈ (resultsOf (driverLoop cfg exec elapsed nodes p fuel)).map (·.participants),
          x ≤ cfg.maxParticipants := by
  intro fuel
  induction fuel with
  | zero =>
    intro nodes p
    exact ⟨0, by simp [driverLoop_zero, resultsOf_nil], by simp [driverLoop_zero, resultsOf_nil]⟩
  | succ f ih =>
    intro nodes p
    by_cases hp : p ≤ cfg.maxParticipants
    · rw [resultsOf_driverLoop_succ cfg exec elapsed nodes p f hp]
      cases hs : (runSingleTest (exec p) p (elapsed p)).success
      · refine ⟨1, ?_, ?_⟩
        · rw [show List.range 1 = [0] from rfl]
          simp [runSingleTest_participants]
        · simp [runSingleTest_participants]
          omega
      · obtain ⟨k, hk, hb⟩ := ih (scaledNodes cfg nodes p) (p + cfg.incrementStep)
        refine ⟨k + 1, ?_, ?_⟩
        · rw [if_pos rfl, List.map_cons, runSingleTest_participants, hk,
            List.range_succ_eq_map, List.map_cons, List.map_map]
          have h0 : p + 0 * cfg.incrementStep = p := by ring
          rw [h0]
          congr 1
          refine List.map_congr_left fun i _ => ?_
          simp only [Function.comp, Nat.succ_eq_add_one]
          ring
        · intro x hx
          rw [if_pos rfl, List.map_cons, runSingleTest_participants] at hx
          rcases List.mem_cons.mp hx with h | h
          · omega
          · exact hb x h
    · refine ⟨0, ?_, ?_⟩
      · rw [driverLoop_succ, if_neg hp]
        simp [resultsOf_nil]
      · rw [driverLoop_succ, if_neg hp]
        simp [resultsOf_nil]

/-! ## The loop stops at the first failure -/

theorem driverLoop_stop (cfg : Config) (exec : Nat → Except Str Str)
    (elapsed : Nat → Nat) :
    ∀ (fuel nodes p : Nat),
      ((resultsOf (driverLoop cfg exec elapsed nodes p fuel)).dropLast).all (·.success)
        = true := by
  intro fuel
  induction fuel with
  | zero => intro nodes p; rfl
  | succ f ih =>
    intro nodes p
    by_cases hp : p ≤ cfg.maxParticipants
    · rw [resultsOf_driverLoop_succ cfg exec elapsed nodes p f hp]
      cases hs : (runSingleTest (exec p) p (elapsed p)).success
      · simp
      · rw [if_pos rfl]
        rcases heq : resultsOf (driverLoop cfg exec elapsed (scaledNodes cfg nodes p)
            (p + cfg.incrementStep) f) with _ | ⟨b, t⟩
        · simp
        · rw [List.dropLast_cons_of_ne_nil (by simp), List.all_cons, hs]
          have := ih (scaledNodes cfg nodes p) (p + cfg.incrementStep)
          rw [heq] at this
          simpa using this
    · rw [driverLoop_succ, if_neg hp]
      rfl

/-! ## Capacity is provisioned before each test -/

theorem driverLoop_good (cfg : Config) (exec : Nat → Except Str Str)
    (elapsed : Nat → Nat) :
    ∀ (fuel nodes p : Nat),
      goodTrace cfg.participantsPerNode (driverLoop cfg exec elapsed nodes p fuel)
        = true := by
  intro fuel
  induction fuel with
  | zero => intro nodes p; rfl
  | succ f ih =>
    intro nodes p
    rw [driverLoop_succ]
    by_cases hp : p ≤ cfg.maxParticipants
    · rw [if_pos hp]
      by_cases hlt : nodes < requiredUnits p cfg.participantsPerNode
      · rw [if_pos hlt, List.singleton_append]
        have hsc : scaledNodes cfg nodes p = requiredUnits p cfg.participantsPerNode := by
          rw [scaledNodes, if_pos hlt]
        rw [hsc]
        simp only [goodTrace]
        simp [hlt]
        split
        · exact ih _ _
        · rfl
      · rw [if_neg hlt, List.nil_append]
        have hsc : scaledNodes cfg nodes p = nodes := by
          rw [scaledNodes, if_neg hlt]
        rw [hsc]
        simp only [goodTrace]
        simp [Nat.le_of_not_lt hlt]
        split
        · exact ih _ _
        · rfl
    · rw [if_neg hp]
      rfl

/-! ## Each recorded step is the executor's outcome for its load -/

theorem driverLoop_test_result (cfg : Config) (exec : Nat → Except Str Str)
    (elapsed : Nat → Nat) :
    ∀ (fuel nodes p L n : Nat) (r : TestStepResult),
      DriverEvent.test L n r ∈ driverLoop cfg exec elapsed nodes p fuel →
      r = runSingleTest (exec L) L (elapsed L) := by
  intro fuel
  induction fuel with
  | zero => intro nodes p L n r h; simp [driverLoop_zero] at h
  | succ f ih =>
    intro nodes p L n r h
    rw [driverLoop_succ] at h
    by_cases hp : p ≤ cfg.maxParticipants
    · rw [if_pos hp] at h
      rcases List.mem_append.mp h with h1 | h2
      · revert h1
        split <;> intro h1 <;> simp at h1
      · rcases List.mem_cons.mp h2 with h3 | h4
        · injection h3 with hL hn hr
          subst hL
          exact hr
        · revert h4
          split <;> intro h4
          · exact ih _ _ _ _ _ h4
          · simp at h4
    · rw [if_neg hp] at h
      simp at h

theorem mem_resultsOf {l n : Nat} {r : TestStepResult} {tr : List DriverEvent}
    (h : DriverEvent.test l n r ∈ tr) : r ∈ resultsOf tr :=
  List.mem_filterMap.mpr ⟨DriverEvent.test l n r, h, rfl⟩

/-- C1: For every campaign (over the configured domain of a positive
increment and positive per-unit capacity), the sequence of requested loads
across the recorded TestStepResults is exactly increment, 2·increment,
3·increment, … — strictly increasing, starting at the increment, with no
value skipped or repeated — and every recorded load is at most the
configured maximum. -/
theorem claim_C1_load_sequence (cfg : Config) (exec : Nat → Except Str Str)
    (elapsed : Nat → Nat) (initialNodes : Nat)
    (hinc : 0 < cfg.incrementStep) (_hcap : 0 < cfg.participantsPerNode) :
    ∃ k, ((resultsOf (runIncrementalTests cfg exec elapsed initialNodes)).map
            (·.participants)
          = (List.range k).map fun i => (i + 1) * cfg.incrementStep)
      ∧ List.Pairwise (· < ·)
          ((resultsOf (runIncrementalTests cfg exec elapsed initialNodes)).map
            (·.participants))
      ∧ ∀ x ∈ (resultsOf (runIncrementalTests cfg exec elapsed initialNodes)).map
            (·.participants),
          x ≤ cfg.maxParticipants := by
  obtain ⟨k, hk, hb⟩ := driverLoop_loads cfg exec elapsed
    (cfg.maxParticipants + 1) initialNodes cfg.incrementStep
  have hmap : (List.range k).map (fun i => cfg.incrementStep + i * cfg.incrementStep)
      = (List.range k).map fun i => (i + 1) * cfg.incrementStep :=
    List.map_congr_left fun i _ => by ring
  refine ⟨k, ?_, ?_, ?_⟩
  · rw [runIncrementalTests, hk]
    exact hmap
  · rw [runIncrementalTests, hk, hmap]
    refine List.pairwise_map.mpr ?_
    exact (List.pairwise_lt_range k).imp fun hab =>
      Nat.mul_lt_mul_of_pos_right (Nat.succ_lt_succ hab) hinc
  · intro x hx
    rw [runIncrementalTests] at hx
    exact hb x hx

/-- C1 witness: the concrete campaign with increment 50, maximum 100,
capacity 80, a succeeding executor and 3 initial workers records exactly the
loads 50, 100. -/
theorem claim_C1_load_sequence_witness :
    0 < cfgW.incrementStep ∧ 0 < cfgW.participantsPerNode ∧
      ∃ k, ((resultsOf (runIncrementalTests cfgW execOkW elapsedW 3)).map
              (·.participants)
            = (List.range k).map fun i => (i + 1) * cfgW.incrementStep)
        ∧ List.Pairwise (· < ·)
            ((resultsOf (runIncrementalTests cfgW execOkW elapsedW 3)).map
              (·.participants))
        ∧ ∀ x ∈ (resultsOf (runIncrementalTests cfgW execOkW elapsedW 3)).map
              (·.participants),
            x ≤ cfgW.maxParticipants :=
  ⟨by decide, by decide,
    claim_C1_load_sequence cfgW execOkW elapsedW 3 (by decide) (by decide)⟩

/-- C2: once a TestStepResult with success = false has been appended, no
further TestStepResult is ever appended: every recorded result other than
the last one is successful, for every campaign and executor behaviour. -/
theorem claim_C2_stop_on_failure (cfg : Config) (exec : Nat → Except Str Str)
    (elapsed : Nat → Nat) (initialNodes : Nat)
    (_hinc : 0 < cfg.incrementStep) (_hcap : 0 < cfg.participantsPerNode) :
    ((resultsOf (runIncrementalTests cfg exec elapsed initialNodes)).dropLast).all
      (·.success) = true :=
  driverLoop_stop cfg exec elapsed (cfg.maxParticipants + 1) initialNodes
    cfg.incrementStep

/-- C2 witness: in the concrete campaign where the executor errors at the
very first load, the single recorded failure is the last entry. -/
theorem claim_C2_stop_on_failure_witness :
    0 < cfgW.incrementStep ∧ 0 < cfgW.participantsPerNode ∧
      ((resultsOf (runIncrementalTests cfgW execErrW elapsedW 1)).dropLast).all
        (·.success) = true :=
  ⟨by decide, by decide,
    claim_C2_stop_on_failure cfgW execErrW elapsedW 1 (by decide) (by decide)⟩

/-- C5: in every campaign trace, each test at load L runs with at least
requiredUnits(L, capacity) workers registered, and each scale-up event is
immediately followed by the test it provisioned for: it adds exactly the
deficit, bringing the registered count from its old value to exactly the
required units of that test's load. -/
theorem claim_C5_scale_before_test (cfg : Config) (exec : Nat → Except Str Str)
    (elapsed : Nat → Nat) (initialNodes : Nat)
    (_hinc : 0 < cfg.incrementStep) (_hcap : 0 < cfg.participantsPerNode) :
    goodTrace cfg.participantsPerNode
      (runIncrementalTests cfg exec elapsed initialNodes) = true :=
  driverLoop_good cfg exec elapsed (cfg.maxParticipants + 1) initialNodes
    cfg.incrementStep

/-- C5 witness: the concrete campaign up to 200 participants starting from a
single worker scales 1 → 2 → 3 and satisfies the capacity shape. -/
theorem claim_C5_scale_before_test_witness :
    0 < cfgScaleW.incrementStep ∧ 0 < cfgScaleW.participantsPerNode ∧
      goodTrace cfgScaleW.participantsPerNode
        (runIncrementalTests cfgScaleW execOkW elapsedW 1) = true :=
  ⟨by decide, by decide,
    claim_C5_scale_before_test cfgScaleW execOkW elapsedW 1 (by decide) (by decide)⟩

/-- C8: whenever the remote executor call for a step raises an error, the
step is still recorded: the result in the trace's test event for that load
has success = false and the caught message as its only diagnostic, and that
result appears in the generated report's detailed results — the error is
not propagated as a fatal campaign error. -/
theorem claim_C8_executor_error_recorded (cfg : Config)
    (exec : Nat → Except Str Str) (elapsed : Nat → Nat)
    (initialNodes L n nc : Nat) (msg : Str) (r : TestStepResult)
    (hexec : exec L = Except.error msg)
    (hmem : DriverEvent.test L n r ∈ runIncrementalTests cfg exec elapsed initialNodes) :
    r.success = false ∧ r.errors = [msg] ∧
      r ∈ (generateFinalReport
            (resultsOf (runIncrementalTests cfg exec elapsed initialNodes)) nc).detailedResults := by
  have hr := driverLoop_test_result cfg exec elapsed
    (cfg.maxParticipants + 1) initialNodes cfg.incrementStep L n r hmem
  rw [hexec] at hr
  have hdet : (generateFinalReport
      (resultsOf (runIncrementalTests cfg exec elapsed initialNodes)) nc).detailedResults
      = resultsOf (runIncrementalTests cfg exec elapsed initialNodes) := rfl
  refine ⟨by rw [hr]; rfl, by rw [hr]; rfl, ?_⟩
  rw [hdet]
  exact mem_resultsOf hmem

/-- C8 witness: with an executor that throws "ssh failed" at load 50, the
trace records the failed step with that diagnostic and it appears in the
report. -/
theorem claim_C8_executor_error_recorded_witness :
    execErrW 50 = Except.error ("ssh failed".data) ∧
    DriverEvent.test 50 1 rErrW ∈ runIncrementalTests cfgW execErrW elapsedW 1 ∧
    (rErrW.success = false ∧ rErrW.errors = [("ssh failed".data)] ∧
      rErrW ∈ (generateFinalReport
        (resultsOf (runIncrementalTests cfgW execErrW elapsedW 1)) 1).detailedResults) :=
  ⟨rfl, by decide,
    claim_C8_executor_error_recorded cfgW execErrW elapsedW 1 50 1 1
      ("ssh failed".data) rErrW rfl (by decide)⟩
